import Mathlib

/-!
Verification of the FIT CRC-16 engine of rubyfit.

The repository ships only the auto-generated header
`ext/rubyfit/fit_crc.h`, which declares three functions:

  FIT_UINT16 FitCRC_Get16(FIT_UINT16 crc, FIT_UINT8 byte);
  FIT_UINT16 FitCRC_Update16(FIT_UINT16 crc, const volatile void *data, FIT_UINT32 size);
  FIT_UINT16 FitCRC_Calc16(const volatile void *data, FIT_UINT32 size);

The implementation file (fit_crc.c) is not part of the sources, so the
bodies below are modelled from the specification: a table-driven CRC-16
accumulator, bit-exact with the FIT protocol's published 16-entry nibble
table, processing each byte with two table lookups (low nibble then high
nibble), folded left-to-right over the input, with an authoritative
explicit length and a fail-fast treatment of a length that exceeds the
available data.

Bytes are modelled as natural numbers (the functions mask their inputs
exactly as the C code does, so no UInt wrapping is needed); a byte
sequence is a `List Nat`; the fallible length contract is modelled with
`Option`.
-/

/-- Modelled from the spec: the canonical FIT protocol 16-entry CRC-16
lookup table (protocol-mandated constants for the polynomial 0xA001,
reflected); `fit_crc.c` is absent from the sources, so the table is taken
from the authoritative FIT protocol specification as the spec directs. -/
def crc_table : List Nat :=
  [0x0000, 0xCC01, 0xD801, 0x1400, 0xF001, 0x3C00, 0x2800, 0xE401,
   0xA001, 0x6C00, 0x7800, 0xB401, 0x5000, 0x9C01, 0x8801, 0x4400]

/-- Modelled from the spec: `FitCRC_Get16` (StepByte), whose body is
absent from the sources. Mixes one byte into the 16-bit accumulator with
two nibble-wise table lookups: for each nibble of the byte (low first),
shift the accumulator right by 4, XOR in the table entry selected by the
shifted-out nibble and the table entry selected by the input nibble. -/
def FitCRC_Get16 (crc byte : Nat) : Nat :=
  let tmp1 := crc_table.getD (crc &&& 0xF) 0
  let crc1 := ((crc >>> 4) &&& 0x0FFF) ^^^ tmp1 ^^^ crc_table.getD (byte &&& 0xF) 0
  let tmp2 := crc_table.getD (crc1 &&& 0xF) 0
  ((crc1 >>> 4) &&& 0x0FFF) ^^^ tmp2 ^^^ crc_table.getD ((byte >>> 4) &&& 0xF) 0

/-- Modelled from the spec: the sequential loop inside `FitCRC_Update16`,
stepping the accumulator once per byte, in order, for `size` bytes. -/
def updateLoop : Nat → List Nat → Nat → Nat
  | crc, _, 0 => crc
  | crc, [], _ + 1 => crc
  | crc, b :: rest, n + 1 => updateLoop (FitCRC_Get16 crc b) rest n

/-- Modelled from the spec: `FitCRC_Update16`, whose body is absent from
the sources. The explicit length is authoritative; per the spec's error
policy, a `size` that exceeds the bytes actually provided is a caller
contract violation detected by a precondition check that fails fast
(`none`) instead of reading invalid memory; otherwise the accumulator is
threaded through `FitCRC_Get16` once per byte for the first `size`
bytes. -/
def FitCRC_Update16 (crc : Nat) (data : List Nat) (size : Nat) : Option Nat :=
  if size ≤ data.length then some (updateLoop crc data size) else none

/-- Modelled from the spec: `FitCRC_Calc16`, whose body is absent from
the sources; the convenience entry point starting a fresh checksum from
the canonical initial value 0. -/
def FitCRC_Calc16 (data : List Nat) (size : Nat) : Option Nat :=
  FitCRC_Update16 0 data size

/-- Modelled from the spec and header: at the C boundary the length
parameter of `FitCRC_Update16` has type `FIT_UINT32` (declared in the
header; the typedef lives in the absent `fit.h`), so a caller-supplied
count is interpreted modulo 2^32. -/
def FitCRC_Update16_abi (crc : Nat) (data : List Nat) (size : Nat) : Option Nat :=
  FitCRC_Update16 crc data (size % 2 ^ 32)

/-- Modelled from the spec and header: the `FIT_UINT32` length boundary
of `FitCRC_Calc16`. -/
def FitCRC_Calc16_abi (data : List Nat) (size : Nat) : Option Nat :=
  FitCRC_Calc16 data (size % 2 ^ 32)

/-- The loop of `FitCRC_Update16` computes the left fold of the step
function over the first `size` bytes, whenever `size` bytes are
available. -/
lemma updateLoop_eq_foldl_take :
    ∀ (data : List Nat) (crc size : Nat), size ≤ data.length →
      updateLoop crc data size = List.foldl FitCRC_Get16 crc (data.take size) := by
  intro data
  induction data with
  | nil =>
      intro crc size h
      have hz : size = 0 := Nat.le_zero.mp h
      subst hz
      rfl
  | cons b rest ih =>
      intro crc size h
      cases size with
      | zero => rfl
      | succ n =>
          have hn : n ≤ rest.length := Nat.succ_le_succ_iff.mp h
          simp only [updateLoop, List.take_succ_cons, List.foldl_cons]
          exact ih (FitCRC_Get16 crc b) n hn

/-- Closed form of `FitCRC_Update16`: a guarded left fold over the first
`size` bytes. -/
lemma update16_eq_ite (crc : Nat) (data : List Nat) (size : Nat) :
    FitCRC_Update16 crc data size =
      if size ≤ data.length
      then some (List.foldl FitCRC_Get16 crc (data.take size))
      else none := by
  unfold FitCRC_Update16
  by_cases h : size ≤ data.length
  · rw [if_pos h, if_pos h, updateLoop_eq_foldl_take data crc size h]
  · rw [if_neg h, if_neg h]

/-- Every entry of the CRC table, at an index below 16, is a 16-bit
value. -/
lemma table_getD_lt_of_lt (i : Nat) (h : i < 16) : crc_table.getD i 0 < 2 ^ 16 := by
  interval_cases i <;> decide

/-- Every table lookup performed by the step function (always at an index
masked to a nibble) yields a 16-bit value. -/
lemma table_lookup_lt (x : Nat) : crc_table.getD (x &&& 0xF) 0 < 2 ^ 16 := by
  have h : x &&& 0xF < 2 ^ 4 := Nat.and_lt_two_pow x (by decide)
  exact table_getD_lt_of_lt (x &&& 0xF) (by simpa using h)

/-- C1: Bit-exact table correctness. `FitCRC_Calc16` applied to the
canonical CRC-16/ARC check sequence, the ASCII bytes of the string
123456789, with its length 9, returns exactly the documented check value
0xBB3D. -/
theorem fitcrc_calc16_check_vector :
    FitCRC_Calc16 [0x31, 0x32, 0x33, 0x34, 0x35, 0x36, 0x37, 0x38, 0x39] 9 =
      some 0xBB3D := by
  decide

/-- C2: For every 16-bit accumulator `c` and every byte sequence `S`
with its length as `size`, `FitCRC_Update16 c S S.length` is the left
fold of `FitCRC_Get16` over the bytes of `S` in order, starting from
`c`. -/
theorem fitcrc_update16_is_foldl (c : Nat) (S : List Nat) :
    FitCRC_Update16 c S S.length = some (List.foldl FitCRC_Get16 c S) := by
  rw [update16_eq_ite, if_pos (Nat.le_refl _), List.take_length]

/-- C3: For every byte sequence `S`, `FitCRC_Calc16 S S.length` equals
`FitCRC_Update16 0 S S.length`: Calc is Update started from the
canonical initial accumulator 0. -/
theorem fitcrc_calc16_eq_update16 (S : List Nat) :
    FitCRC_Calc16 S S.length = FitCRC_Update16 0 S S.length := rfl

/-- C4: Streaming equivalence. Updating with `S1` and then with `S2`
yields the same final accumulator as one update over the concatenation
with the summed length. -/
theorem fitcrc_update16_streaming (c : Nat) (S1 S2 : List Nat) :
    (FitCRC_Update16 c S1 S1.length).bind
        (fun m => FitCRC_Update16 m S2 S2.length) =
      FitCRC_Update16 c (S1 ++ S2) (S1.length + S2.length) := by
  rw [fitcrc_update16_is_foldl c S1, Option.some_bind,
    fitcrc_update16_is_foldl (List.foldl FitCRC_Get16 c S1) S2]
  have hlen : S1.length + S2.length = (S1 ++ S2).length := (List.length_append S1 S2).symm
  rw [hlen, fitcrc_update16_is_foldl c (S1 ++ S2), List.foldl_append]

/-- C5: The result of `FitCRC_Update16` depends only on the first `size`
bytes: sequences agreeing on their first `size` bytes give the same
result, and `size = 0` returns the accumulator unchanged for every
sequence, so bytes beyond `size` never affect the result. -/
theorem fitcrc_update16_reads_only_first_size :
    (∀ (c size : Nat) (S1 S2 : List Nat), S1.take size = S2.take size →
        FitCRC_Update16 c S1 size = FitCRC_Update16 c S2 size) ∧
      (∀ (c : Nat) (S : List Nat), FitCRC_Update16 c S 0 = some c) := by
  constructor
  · intro c size S1 S2 h
    have hmin : min size S1.length = min size S2.length := by
      have := congrArg List.length h
      simpa [List.length_take] using this
    rw [update16_eq_ite, update16_eq_ite, h]
    by_cases h1 : size ≤ S1.length
    · have h2 : size ≤ S2.length := by
        have : min size S2.length = size := by rw [← hmin]; exact min_eq_left h1
        exact min_eq_left_iff.mp this
      rw [if_pos h1, if_pos h2]
    · have h2 : ¬ size ≤ S2.length := by
        intro hc
        apply h1
        have : min size S1.length = size := by rw [hmin]; exact min_eq_left hc
        exact min_eq_left_iff.mp this
      rw [if_neg h1, if_neg h2]
  · intro c S
    rw [update16_eq_ite, if_pos (Nat.zero_le _), List.take_zero, List.foldl_nil]

/-- C6: Identity on empty input: `FitCRC_Calc16` on the empty byte
sequence with size 0 returns exactly 0. -/
theorem fitcrc_calc16_empty : FitCRC_Calc16 [] 0 = some 0 := by decide

/-- C7: `FitCRC_Get16` is total with no error conditions: for every
accumulator and every byte (indeed for all natural inputs, hence for all
256 x 65536 valid combinations) it produces a result below 2^16, so the
accumulator always stays within the 16-bit range and overflow cannot
occur. -/
theorem fitcrc_get16_result_lt (crc byte : Nat) : FitCRC_Get16 crc byte < 2 ^ 16 := by
  unfold FitCRC_Get16
  simp only []
  exact Nat.xor_lt_two_pow
    (Nat.xor_lt_two_pow (Nat.and_lt_two_pow _ (by decide)) (table_lookup_lt _))
    (table_lookup_lt _)

/-- C8: Invalid-length handling: a nonzero `size` with an empty (absent)
byte sequence is a contract violation and both `FitCRC_Update16` and
`FitCRC_Calc16` fail fast with an attributable error (`none`) instead of
reading invalid memory, recovering, or clamping. -/
theorem fitcrc_null_contract :
    (∀ (c size : Nat), 0 < size → FitCRC_Update16 c [] size = none) ∧
      (∀ size : Nat, 0 < size → FitCRC_Calc16 [] size = none) := by
  constructor
  · intro c size h
    have hn : ¬ size ≤ ([] : List Nat).length := by simpa using Nat.not_le.mpr h
    rw [update16_eq_ite, if_neg hn]
  · intro size h
    have hn : ¬ size ≤ ([] : List Nat).length := by simpa using Nat.not_le.mpr h
    show FitCRC_Update16 0 [] size = none
    rw [update16_eq_ite, if_neg hn]

/-- C8 witness: at the concrete contract-violating input of an empty
sequence with size 1, both entry points fail fast with `none`. -/
theorem fitcrc_null_contract_witness :
    (0 < 1 ∧ FitCRC_Update16 5 [] 1 = none) ∧ (0 < 1 ∧ FitCRC_Calc16 [] 1 = none) :=
  ⟨⟨by decide, fitcrc_null_contract.1 5 1 (by decide)⟩,
   ⟨by decide, fitcrc_null_contract.2 1 (by decide)⟩⟩

/-- C9: All three operations are deterministic pure functions of their
explicit arguments: calls with identical inputs return identical
outputs (the absence of side effects and of mutation of the caller's
sequence holds by construction of the pure functional model). -/
theorem fitcrc_deterministic :
    (∀ (c b c2 b2 : Nat), c = c2 → b = b2 → FitCRC_Get16 c b = FitCRC_Get16 c2 b2) ∧
      (∀ (c n c2 n2 : Nat) (S S2 : List Nat), c = c2 → S = S2 → n = n2 →
        FitCRC_Update16 c S n = FitCRC_Update16 c2 S2 n2) ∧
      (∀ (n n2 : Nat) (S S2 : List Nat), S = S2 → n = n2 →
        FitCRC_Calc16 S n = FitCRC_Calc16 S2 n2) := by
  refine ⟨?_, ?_, ?_⟩
  · intro c b c2 b2 h1 h2
    rw [h1, h2]
  · intro c n c2 n2 S S2 h1 h2 h3
    rw [h1, h2, h3]
  · intro n n2 S S2 h1 h2
    rw [h1, h2]

/-- C9 witness: at a concrete repeated input, the two calls of each
operation return the identical output. -/
theorem fitcrc_deterministic_witness :
    FitCRC_Get16 3 7 = FitCRC_Get16 3 7 ∧
      FitCRC_Update16 3 [7, 8] 2 = FitCRC_Update16 3 [7, 8] 2 ∧
      FitCRC_Calc16 [7, 8] 2 = FitCRC_Calc16 [7, 8] 2 :=
  ⟨fitcrc_deterministic.1 3 7 3 7 rfl rfl,
   fitcrc_deterministic.2.1 3 2 3 2 [7, 8] [7, 8] rfl rfl rfl,
   fitcrc_deterministic.2.2 2 2 [7, 8] [7, 8] rfl rfl⟩

/-- C10: At the public interface the length parameter is a 32-bit
unsigned (`FIT_UINT32`): the caller-supplied count is interpreted modulo
2^32 at the boundary (periodic in 2^32, fixed by reduction modulo 2^32),
so a single call covers at most 2^32 - 1 bytes. -/
theorem fitcrc_size_uint32_boundary :
    (∀ (c s : Nat) (d : List Nat),
        FitCRC_Update16_abi c d s = FitCRC_Update16_abi c d (s % 2 ^ 32) ∧
          FitCRC_Update16_abi c d (s + 2 ^ 32) = FitCRC_Update16_abi c d s ∧
          s % 2 ^ 32 < 2 ^ 32) ∧
      (∀ (s : Nat) (d : List Nat),
        FitCRC_Calc16_abi d s = FitCRC_Calc16_abi d (s % 2 ^ 32) ∧
          FitCRC_Calc16_abi d (s + 2 ^ 32) = FitCRC_Calc16_abi d s ∧
          s % 2 ^ 32 < 2 ^ 32) := by
  constructor
  · intro c s d
    refine ⟨?_, ?_, Nat.mod_lt _ (Nat.two_pow_pos 32)⟩
    · show FitCRC_Update16 c d (s % 2 ^ 32) = FitCRC_Update16 c d (s % 2 ^ 32 % 2 ^ 32)
      rw [Nat.mod_mod_of_dvd s (dvd_refl (2 ^ 32))]
    · show FitCRC_Update16 c d ((s + 2 ^ 32) % 2 ^ 32) = FitCRC_Update16 c d (s % 2 ^ 32)
      rw [Nat.add_mod_right]
  · intro s d
    refine ⟨?_, ?_, Nat.mod_lt _ (Nat.two_pow_pos 32)⟩
    · show FitCRC_Calc16 d (s % 2 ^ 32) = FitCRC_Calc16 d (s % 2 ^ 32 % 2 ^ 32)
      rw [Nat.mod_mod_of_dvd s (dvd_refl (2 ^ 32))]
    · show FitCRC_Calc16 d ((s + 2 ^ 32) % 2 ^ 32) = FitCRC_Calc16 d (s % 2 ^ 32)
      rw [Nat.add_mod_right]

/-- C5 witness: at the concrete accumulator 7 and size 2, two sequences
agreeing on their first 2 bytes give the same result. -/
theorem fitcrc_update16_reads_only_first_size_witness :
    ([1, 2, 3] : List Nat).take 2 = ([1, 2, 99] : List Nat).take 2 ∧
      FitCRC_Update16 7 [1, 2, 3] 2 = FitCRC_Update16 7 [1, 2, 99] 2 :=
  ⟨by decide, fitcrc_update16_reads_only_first_size.1 7 2 [1, 2, 3] [1, 2, 99] (by decide)⟩
